import Mathlib

/-!
Verification of the objaverse-synthetic repository.

The repository has two Python scripts:

* `scripts/download_objaverse.py` (the "Selector"): picks asset identifiers
  from the objaverse catalog, optionally loads them from a manifest file,
  optionally filters out already-uploaded ones, and writes download URLs.
* `scripts/blender_script.py` (the "Capturer"): drives Blender to import a
  3D asset, normalize it, orbit a camera, render train/val/test images with
  camera-pose metadata, and export a joined mesh.

This file shallowly embeds the decision logic of both scripts.  Machine
floats are modelled as rationals, Python exceptions as an explicit `PyExc`
error type, and the Blender scene as explicit data (world-space bounding-box
corners of each object, plus each object's root origin).  Calls into Blender
whose outcome the scripts merely propagate (the glTF importer, the renderer)
are oracle parameters; every branch the scripts themselves take is embedded
from the source.
-/

/-- Python exception values, carrying the message text. -/
inductive PyExc where
  | typeError (msg : String)
  | valueError (msg : String)
  | runtimeError (msg : String)
  | zeroDivisionError (msg : String)
  | assertionError (msg : String)
deriving DecidableEq, Repr

deriving instance DecidableEq for Except

/-- `str(e)`: the message of an exception, as printed by the handler. -/
def excMessage : PyExc → String
  | .typeError m => m
  | .valueError m => m
  | .runtimeError m => m
  | .zeroDivisionError m => m
  | .assertionError m => m

/-! ## Selector: `scripts/download_objaverse.py` -/

/-- A filesystem, modelled as the list of existing file paths. -/
abbrev FS := List String

/-- Python `s.split(sep)` for a one-character separator: split at every
occurrence, keeping empty pieces (so the result is never empty). -/
def splitChar (sep : Char) : List Char → List (List Char)
  | [] => [[]]
  | c :: rest =>
    match splitChar sep rest with
    | [] => [[]]
    | piece :: pieces =>
        if c = sep then [] :: piece :: pieces else (c :: piece) :: pieces

/-- Python `s.startswith(pre)`. -/
def strStartsWith (s pre : String) : Bool := pre.data.isPrefixOf s.data

/-- Python `s.endswith(suf)`. -/
def strEndsWith (s suf : String) : Bool := suf.data.isSuffixOf s.data

/-- Python `s.strip()`: drop whitespace from both ends. -/
def pyStrip (l : List Char) : List Char :=
  ((l.dropWhile Char.isWhitespace).reverse.dropWhile Char.isWhitespace).reverse

/-- `os.path.exists` as called at line 54 of `download_objaverse.py`.
For a string argument it reports whether the path exists; for `None`
(the declared default of `uid_json_path`) CPython's `os.stat` rejects the
argument with `TypeError`, which `os.path.exists` does not catch. -/
def os_path_exists (fs : FS) : Option String → Except PyExc Bool
  | none => .error (.typeError
      ("stat: path should be string, bytes, os.PathLike or integer, not NoneType"))
  | some p => .ok (fs.contains p)

/-- Python list slice `l[s:e]` for non-negative bounds. -/
def pySlice (l : List α) (s e : ℕ) : List α := (l.take e).drop s

/-- One step of the stable descending insertion used to model
`sorted(uids, key=lambda x: annot[x]['likeCount'], reverse=True)`:
`x` is placed before the first element whose key is `≤` its own, so an
element keeps its position relative to later elements with equal keys. -/
def insertDesc (key : α → ℤ) (x : α) : List α → List α
  | [] => [x]
  | y :: ys => if key x < key y then y :: insertDesc key x ys else x :: y :: ys

/-- Stable descending sort by `key`; models CPython `sorted(..., reverse=True)`,
which is guaranteed stable and does not reorder equal elements. -/
def sortDesc (key : α → ℤ) : List α → List α
  | [] => []
  | x :: xs => insertDesc key x (sortDesc key xs)

/-- The recompute branch of the Selector (lines 58-63 of
`download_objaverse.py`): seed the PRNG (the seeded shuffle is the pure
function `shuffle`), shuffle the catalog uid list, slice `[start_i:end_i]`,
and keep the `n_objects` most-liked uids in descending popularity. -/
def selectorRecompute (shuffle : List String → List String)
    (likeCount : String → ℤ) (catalog : List String)
    (start_i end_i n_objects : ℕ) : List String :=
  let uids := shuffle catalog
  let uids := pySlice uids start_i end_i
  (sortDesc likeCount uids).take n_objects

/-- The uid-acquisition branching of the Selector `__main__` (lines 54-63):
load from the manifest file when `os.path.exists(uid_json_path)` holds,
otherwise recompute from the catalog.  `manifestUids` stands for the
parsed content of the manifest file. -/
def selector_uids (fs : FS) (uid_json_path : Option String)
    (manifestUids : List String) (shuffle : List String → List String)
    (likeCount : String → ℤ) (catalog : List String)
    (start_i end_i n_objects : ℕ) : Except PyExc (List String) :=
  match os_path_exists fs uid_json_path with
  | .error e => .error e
  | .ok true => .ok manifestUids
  | .ok false =>
      .ok (selectorRecompute shuffle likeCount catalog start_i end_i n_objects)

/-- `file.split("/")[0]`: the storage prefix of an object key
(`get_completed_uids`, line 41). -/
def dirOf (key : String) : String := String.mk ((splitChar '/' key.data).headI)

/-- `dir_counts[d] = dir_counts.get(d, 0) + 1` on an association list
standing for the Python dict (keys stay unique). -/
def bump (counts : List (String × ℕ)) (d : String) : List (String × ℕ) :=
  match counts with
  | [] => [(d, 1)]
  | (k, c) :: rest => if k = d then (k, c + 1) :: rest else (k, c) :: bump rest d

/-- The `dir_counts` dict of `get_completed_uids` (lines 39-42): count the
keys by their first path component. -/
def dir_counts (files : List String) : List (String × ℕ) :=
  files.foldl (fun m f => bump m (dirOf f)) []

/-- `get_completed_uids` (lines 33-46): the storage prefixes that hold
exactly 12 objects.  `files` is the bucket listing. -/
def get_completed_uids (files : List String) : List String :=
  ((dir_counts files).filter (fun kc => kc.2 == 12)).map (fun kc => kc.1)

/-- The `skip_completed` filter of the Selector `__main__` (lines 66-68):
`[uid for uid in uids if uid not in completed_uids]`. -/
def skip_completed_filter (files : List String) (uids : List String) :
    List String :=
  uids.filter (fun uid => !(get_completed_uids files).contains uid)

/-! ## Python `int()` string conversion

`blender_script.py` registers `--camera_dist` with `type=int` (line 44), so
argparse converts the command-line token with Python's `int()`.  `pyInt`
models `int()` on strings: optional surrounding whitespace, an optional
sign, then decimal digits with single underscores allowed strictly between
digits; anything else (such as a decimal point) raises `ValueError`, which
argparse turns into an "invalid int value" error and `SystemExit`. -/

/-- Digits after the first: each underscore must be followed by a digit,
and every other character must be a digit. -/
def pyDigitsRest : List Char → Bool
  | [] => true
  | '_' :: [] => false
  | '_' :: c :: rest => c.isDigit && pyDigitsRest rest
  | c :: rest => c.isDigit && pyDigitsRest rest

/-- A valid unsigned body of a Python integer literal for `int()`. -/
def pyDigitsOk : List Char → Bool
  | [] => false
  | c :: rest => c.isDigit && pyDigitsRest rest

/-- Numeric value of a digit-and-underscore body. -/
def pyDigitsVal (l : List Char) : ℕ :=
  (l.filter (fun c => c != '_')).foldl (fun a c => 10 * a + (c.toNat - 48)) 0

/-- Python `int(s)` for a decimal string: `some n` on success, `none` when
`int()` would raise `ValueError`. -/
def pyInt (s : String) : Option ℤ :=
  match pyStrip s.data with
  | '+' :: rest => if pyDigitsOk rest then some (pyDigitsVal rest) else none
  | '-' :: rest => if pyDigitsOk rest then some (-(pyDigitsVal rest : ℤ)) else none
  | rest => if pyDigitsOk rest then some (pyDigitsVal rest) else none

/-- The conversion argparse applies to the `--camera_dist` token
(`parser.add_argument("--camera_dist", type=int, default=4)`, line 44). -/
def parse_camera_dist (s : String) : Option ℤ := pyInt s

/-! ## Blender scene model

`scene_bbox` in `blender_script.py` iterates the mesh objects and folds
componentwise min/max over the world-space images (`obj.matrix_world @
coord`) of the 8 `bound_box` corners of each object.  We model an object by
its mesh flag, the world-space position of the root object it hangs under
(`matrix_world.translation` of that parentless ancestor), and the 8
world-space corner points.  Coordinates are rationals.

`normalize_scene` multiplies the local scale of every root object by a
factor `c` (`obj.scale = obj.scale * scale`).  Since a root's world matrix
factors as `T · R · S`, multiplying `S` by the scalar `c` sends every
world-space point `p` of that root's subtree to `o + c • (p - o)` where `o`
is the root's world origin; that map is `affMap c o` below.  The later
translation `obj.matrix_world.translation += offset` shifts every
world-space point (and the origin) by `offset`. -/

/-- A 3D point/vector with rational coordinates. -/
abbrev Vec3 := ℚ × ℚ × ℚ

/-- Componentwise minimum (the `bbox_min` update of `scene_bbox`). -/
def vmin (a b : Vec3) : Vec3 := (min a.1 b.1, min a.2.1 b.2.1, min a.2.2 b.2.2)

/-- Componentwise maximum (the `bbox_max` update of `scene_bbox`). -/
def vmax (a b : Vec3) : Vec3 := (max a.1 b.1, max a.2.1 b.2.1, max a.2.2 b.2.2)

/-- A Blender object as seen by the script: whether `obj.data` is a mesh,
the world origin of its root object, and the world-space positions of its
8 `bound_box` corners. -/
structure SceneObj where
  isMesh : Bool
  origin : Vec3
  corner : Fin 8 → Vec3

/-- `scene_meshes()` (lines 157-160): the objects whose data is a mesh. -/
def scene_meshes (objs : List SceneObj) : List SceneObj :=
  objs.filter (fun o => o.isMesh)

/-- The 8 world-space `bound_box` corners of one object, as a list. -/
def cornersList (o : SceneObj) : List Vec3 :=
  (List.finRange 8).map o.corner

/-- All corners scanned by the `scene_bbox` loop. -/
def allCorners (objs : List SceneObj) : List Vec3 :=
  objs.flatMap cornersList

/-- Fold of componentwise min and max starting from point `p`. -/
def vbounds (p : Vec3) (l : List Vec3) : Vec3 × Vec3 :=
  (l.foldl vmin p, l.foldl vmax p)

/-- `scene_bbox` (lines 134-148): componentwise min/max over all corners of
all mesh objects; raises `RuntimeError` when there is no mesh object
(the `found` flag).  Starting the fold from the first corner instead of
`±inf` gives the same bounds because the first corner is itself scanned. -/
def scene_bbox (objs : List SceneObj) : Except PyExc (Vec3 × Vec3) :=
  match scene_meshes objs with
  | [] => .error (.runtimeError ("no objects in scene to compute bounding box for"))
  | m :: rest => .ok (vbounds (m.corner 0) (allCorners (m :: rest)))

/-- `max(bbox_max - bbox_min)`: the largest component of a vector. -/
def maxDim (v : Vec3) : ℚ := max v.1 (max v.2.1 v.2.2)

/-- Uniform scaling about the point `o`. -/
def affMap (c : ℚ) (o : Vec3) (p : Vec3) : Vec3 := o + c • (p - o)

/-- Effect on one object of multiplying its root's local scale by `c`:
world points scale about the root origin, the origin itself stays. -/
def scaleObj (c : ℚ) (o : SceneObj) : SceneObj :=
  { o with corner := fun i => affMap c o.origin (o.corner i) }

/-- Effect on one object of `matrix_world.translation += t` on its root. -/
def translateObj (t : Vec3) (o : SceneObj) : SceneObj :=
  { o with origin := o.origin + t, corner := fun i => o.corner i + t }

/-- `normalize_scene(scale)` (lines 163-175): compute the mesh bounding
box, scale every root object by `scale / max(bbox_max - bbox_min)` (a
`ZeroDivisionError` when the largest dimension is zero), recompute the
bounding box, and translate every root by `-(bbox_min + bbox_max) / 2`. -/
def normalize_scene (scale : ℚ) (objs : List SceneObj) :
    Except PyExc (List SceneObj) :=
  match scene_bbox objs with
  | .error e => .error e
  | .ok (bmin, bmax) =>
    if maxDim (bmax - bmin) = 0 then
      .error (.zeroDivisionError ("float division by zero"))
    else
      match scene_bbox (objs.map (scaleObj (scale / maxDim (bmax - bmin)))) with
      | .error e => .error e
      | .ok (bmin1, bmax1) =>
        .ok ((objs.map (scaleObj (scale / maxDim (bmax - bmin)))).map
          (translateObj (-((2 : ℚ)⁻¹ • (bmin1 + bmax1)))))

/-- The mesh bounding box observed after `normalize_scene` succeeds. -/
def normBBox (scale : ℚ) (objs : List SceneObj) : Except PyExc (Vec3 × Vec3) :=
  match normalize_scene scale objs with
  | .error e => .error e
  | .ok s => scene_bbox s

/-- `join_meshes` (lines 294-308): select all mesh objects (the loop leaves
the last one active), join them into the active object, re-list the mesh
objects, assert there is exactly one, and return it.  Joining keeps the
active object and removes the other selected meshes; the merged geometry
itself is not needed by any claim, so the joined object keeps the active
object's recorded data.  With no mesh object, `bpy.ops.object.join()`
raises (no active mesh).  The blend data holds exactly the scene's objects
here, since the caller rebuilt the scene from a fresh import. -/
def join_meshes (objs : List SceneObj) : Except PyExc (List SceneObj × SceneObj) :=
  match (scene_meshes objs).getLast? with
  | none => .error (.runtimeError ("Active object is not a mesh"))
  | some active =>
    let joined := objs.filter (fun o => !o.isMesh) ++ [active]
    match joined.filter (fun o => o.isMesh) with
    | [m] => .ok (joined, m)
    | _ => .error (.assertionError ("len(meshes) == 1"))

/-! ## Capturer: `scripts/blender_script.py` -/

/-- The CLI arguments of the Capturer that the claims depend on.  Note
`camera_dist` is declared with `type=int` in the source (line 44). -/
structure Config where
  output_dir : String
  num_images : ℕ
  camera_dist : ℤ

/-- The camera world transform at one frame, decomposed as in
`cam.matrix_world.decompose()`: position and 3×3 rotation matrix. -/
abbrev CamPose := (Fin 3 → ℚ) × (Fin 3 → Fin 3 → ℚ)

/-- Blender-side outcomes the script only propagates: the decomposed camera
pose at each frame index (driven by the track-to constraint), the result of
the format-specific import operator, and the imported scene content. -/
structure BlenderOracle where
  camPose : ℕ → CamPose
  importResult : Except PyExc Unit
  scene : List SceneObj
  downloadResult : Except PyExc Unit

/-- One entry of a split manifest `frames` array. -/
structure Frame where
  file_path : String
  transform_matrix : List (List ℚ)
deriving DecidableEq, Repr

/-- The `frames` dict `{'train': [], 'val': [], 'test': []}` (line 238). -/
structure Frames where
  train : List Frame
  val : List Frame
  test : List Frame
deriving DecidableEq, Repr

/-- The split choice of the render loop (lines 248-253). -/
def splitOf (i : ℕ) : String :=
  if i % 3 = 2 then ("test") else if i % 3 = 1 then ("val") else ("train")

/-- `str(i).zfill(w)` / `f"{i:03d}"` for a natural number rendering. -/
def zfill (w : ℕ) (s : String) : String :=
  if w ≤ s.length then s
  else String.mk (List.replicate (w - s.length) '0') ++ s

/-- The render output path
`os.path.join(output_dir, uid, mode, f"{i:03d}.png")` (line 264). -/
def imgPath (cfg : Config) (uid : String) (i : ℕ) : String :=
  cfg.output_dir ++ "/" ++ uid ++ "/" ++ splitOf i ++ "/" ++
    zfill 3 (Nat.repr i) ++ ".png"

/-- The pose-manifest path `f'{output_dir}/{uid}/transforms_{mode}.json'`
(line 281). -/
def transformsPath (cfg : Config) (uid mode : String) : String :=
  cfg.output_dir ++ "/" ++ uid ++ "/transforms_" ++ mode ++ ".json"

/-- `get_frame_poses` (lines 310-324): rows 0-2 are the rotation rows with
the position appended as fourth column, then the homogeneous row. -/
def get_frame_poses (pos : Fin 3 → ℚ) (rt : Fin 3 → Fin 3 → ℚ) (i : ℕ)
    (mode : String) : Frame :=
  { file_path := mode ++ "/" ++ zfill 3 (Nat.repr i),
    transform_matrix :=
      ((List.finRange 3).map fun ii =>
        ((List.finRange 3).map fun jj => rt ii jj) ++ [pos ii]) ++
      [[0, 0, 0, 1]] }

/-- The pose record appended for frame `i`. -/
def frameOf (cam : ℕ → CamPose) (i : ℕ) : Frame :=
  get_frame_poses (cam i).1 (cam i).2 i (splitOf i)

/-- `frames[mode].append(f)` on the three-key dict. -/
def addFrame (fr : Frames) (mode : String) (f : Frame) : Frames :=
  if mode = "train" then { fr with train := fr.train ++ [f] }
  else if mode = "val" then { fr with val := fr.val ++ [f] }
  else if mode = "test" then { fr with test := fr.test ++ [f] }
  else fr

/-- One iteration of the render loop (lines 245-278): pick the split,
render to the split's directory, and append the pose record to that
split's list. -/
def renderStep (cfg : Config) (uid : String) (cam : ℕ → CamPose)
    (acc : List String × Frames) (i : ℕ) : List String × Frames :=
  let mode := splitOf i
  (acc.1 ++ [imgPath cfg uid i],
   addFrame acc.2 mode (get_frame_poses (cam i).1 (cam i).2 i mode))

/-- The whole render loop `for i in range(args.num_images)`: the list of
rendered image paths and the per-split pose records. -/
def renderLoop (cfg : Config) (uid : String) (cam : ℕ → CamPose) :
    List String × Frames :=
  (List.range cfg.num_images).foldl (renderStep cfg uid cam) ([], ⟨[], [], []⟩)

/-- `os.path.basename` on a POSIX path. -/
def basename (p : String) : String :=
  String.mk ((splitChar '/' p.data).getLastD [])

/-- `os.path.basename(object_file).split(".")[0]` (line 218). -/
def object_uid (object_file : String) : String :=
  String.mk ((splitChar '.' (basename object_file).data).headI)

/-- `load_object` (lines 124-131): dispatch the importer on the file
extension; unknown extensions raise `ValueError`. -/
def load_object (bl : BlenderOracle) (object_path : String) : Except PyExc Unit :=
  if strEndsWith object_path (".glb") then bl.importResult
  else if strEndsWith object_path (".fbx") then bl.importResult
  else .error (.valueError ("Unsupported file type: " ++ object_path))

/-- Observable actions of the Capturer, in program order. -/
inductive Effect where
  | makedirs (dir : String)
  | reset
  | importObj (path : String)
  | render (path : String)
  | writeManifest (path : String)
  | exportMesh (path : String)
  | download (url : String)
  | removeFile (path : String)
  | log (msg : String)
deriving DecidableEq, Repr

/-- `save_images` (lines 215-292) as a trace of effects plus normal/raised
termination: ensure the output directory, return at once when the asset's
`transforms_train.json` already exists, otherwise reset the scene, import
(propagating importer or unsupported-extension errors), normalize (scale
2.5), run the render loop, write the three split manifests, then reload,
re-normalize, join and export the mesh.  Lighting/camera setup and the
camera-position assignments mutate only Blender state already captured by
the oracle, so they add no effect of their own. -/
def save_images (cfg : Config) (bl : BlenderOracle) (fs : FS)
    (object_file : String) : List Effect × Except PyExc Unit :=
  let uid := object_uid object_file
  if transformsPath cfg uid ("train") ∈ fs then
    ([Effect.makedirs cfg.output_dir], .ok ())
  else
    match load_object bl object_file with
    | .error e => ([Effect.makedirs cfg.output_dir, Effect.reset], .error e)
    | .ok _ =>
      match normalize_scene (5 / 2) bl.scene with
      | .error e =>
          ([Effect.makedirs cfg.output_dir, Effect.reset,
            Effect.importObj object_file], .error e)
      | .ok _ =>
        let rl := renderLoop cfg uid bl.camPose
        let trace := [Effect.makedirs cfg.output_dir, Effect.reset,
            Effect.importObj object_file] ++ rl.1.map Effect.render ++
          [Effect.writeManifest (transformsPath cfg uid ("train")),
           Effect.writeManifest (transformsPath cfg uid ("val")),
           Effect.writeManifest (transformsPath cfg uid ("test"))]
        match (normalize_scene (5 / 2) bl.scene).bind join_meshes with
        | .error e => (trace ++ [Effect.importObj object_file], .error e)
        | .ok _ =>
            (trace ++ [Effect.importObj object_file,
              Effect.exportMesh (cfg.output_dir ++ "/" ++ uid ++ "/mesh.obj")],
             .ok ())

/-- The temporary download target of `download_object` (lines 326-338). -/
def download_local_path (url : String) : String :=
  "tmp-objects/" ++
    String.mk ((splitChar '.' ((splitChar '/' url.data).getLastD [])).headI) ++
    ".glb"

/-- The body of the top-level `try` (lines 343-353): download when the
reference is an URL, run `save_images`, report, and delete the downloaded
file.  The first component is the effect trace up to normal or raised
termination. -/
def tryBody (cfg : Config) (bl : BlenderOracle) (fs : FS)
    (object_path : String) : List Effect × Except PyExc Unit :=
  if strStartsWith object_path ("http") then
    match bl.downloadResult with
    | .error e => ([Effect.download object_path], .error e)
    | .ok _ =>
      let localPath := download_local_path object_path
      let r := save_images cfg bl fs localPath
      match r.2 with
      | .error e => (Effect.download object_path :: r.1, .error e)
      | .ok _ =>
          (Effect.download object_path :: r.1 ++
            [Effect.log ("Finished " ++ localPath),
             Effect.removeFile localPath], .ok ())
  else
    let r := save_images cfg bl fs object_path
    match r.2 with
    | .error e => (r.1, .error e)
    | .ok _ => (r.1 ++ [Effect.log ("Finished " ++ object_path)], .ok ())

/-- The `__main__` block (lines 341-356): run the per-asset pipeline inside
a catch-all `except Exception`; on a raise, print the asset reference and
the exception message and fall through (no re-raise, no retry, no removal
of partial output). -/
def runCapturer (cfg : Config) (bl : BlenderOracle) (fs : FS)
    (object_path : String) : List Effect :=
  match tryBody cfg bl fs object_path with
  | (t, .ok _) => t
  | (t, .error e) =>
      t ++ [Effect.log ("Failed to render " ++ object_path),
            Effect.log (excMessage e)]

/-- The 8 corners of an axis-aligned box `[lo, hi]`, as a `bound_box`. -/
def boxCorner (lo hi : Vec3) : Fin 8 → Vec3 := fun i =>
  ((if i.val % 2 = 0 then lo.1 else hi.1),
   (if i.val / 2 % 2 = 0 then lo.2.1 else hi.2.1),
   (if i.val / 4 = 0 then lo.2.2 else hi.2.2))

/-- A unit-cube mesh whose root sits at the world origin. -/
def cubeAtOrigin : SceneObj := ⟨true, (0, 0, 0), boxCorner (0, 0, 0) (1, 1, 1)⟩

/-- A unit-cube mesh under a second root whose origin is at `(10, 0, 0)`:
its local geometry spans `[0,1]³`, so its world box is `[10,11]×[0,1]²`. -/
def cubeFarRoot : SceneObj := ⟨true, (10, 0, 0), boxCorner (10, 0, 0) (11, 1, 1)⟩

/-- `dir_counts.get(d, 0)`: lookup in the association list, 0 if absent. -/
def lookupC : List (String × ℕ) → String → ℕ
  | [], _ => 0
  | (k, c) :: rest, d => if k = d then c else lookupC rest d

/-- Distinctness of the keys of an association list (a dict invariant). -/
def GoodKeys (m : List (String × ℕ)) : Prop :=
  m.Pairwise (fun a b => a.1 ≠ b.1)

/-! ## Claims -/

/-- C6: the Capturer CLI registers `--camera_dist` with `type=int`, so the
token `1.2` from the scenario (`--camera_dist 1.2`, which the module
docstring itself shows as example usage) is rejected by `int()` with
`ValueError` and argparse aborts, while the integer default-style token
`4` is accepted.  This contradicts the claim (and the docstring) that a
non-integer number is accepted. -/
theorem camera_dist_rejects_noninteger :
    parse_camera_dist "1.2" = none ∧ parse_camera_dist "4" = some 4 := by
  constructor <;> rfl

/-- C5: when `uid_json_path` is not supplied, the dataclass default `None`
reaches `os.path.exists`, which raises `TypeError`; the Selector therefore
crashes instead of taking the recompute branch, for every filesystem state
and every remaining argument. -/
theorem selector_none_path_raises (fs : FS) (manifestUids : List String)
    (shuffle : List String → List String) (likeCount : String → ℤ)
    (catalog : List String) (start_i end_i n_objects : ℕ) :
    selector_uids fs none manifestUids shuffle likeCount catalog
        start_i end_i n_objects =
      .error (.typeError
        ("stat: path should be string, bytes, os.PathLike or integer, not NoneType")) := by
  rfl


lemma lookupC_bump (m : List (String × ℕ)) (d d' : String) :
    lookupC (bump m d) d' = lookupC m d' + (if d = d' then 1 else 0) := by
  induction m with
  | nil =>
      by_cases h : d = d' <;> simp [bump, lookupC, h]
  | cons kc rest ih =>
      obtain ⟨k, c⟩ := kc
      by_cases hk : k = d
      · subst hk
        by_cases h : k = d' <;> simp [bump, lookupC, h]
      · simp only [bump, if_neg hk]
        by_cases h : k = d'
        · subst h
          have hd : ¬ d = k := fun hh => hk hh.symm
          simp [lookupC, hd]
        · simp [lookupC, h, ih]

lemma fst_mem_bump (m : List (String × ℕ)) (d : String) :
    ∀ a ∈ bump m d, a.1 = d ∨ a.1 ∈ m.map Prod.fst := by
  induction m with
  | nil =>
      intro a ha
      rw [bump] at ha
      left
      rw [List.mem_singleton.mp ha]
  | cons kc rest ih =>
      obtain ⟨k, c⟩ := kc
      intro a ha
      by_cases hk : k = d
      · subst hk
        rw [bump, if_pos rfl] at ha
        rcases List.mem_cons.mp ha with h | h
        · left; rw [h]
        · right
          rw [List.map_cons]
          exact List.mem_cons.mpr (Or.inr (List.mem_map.mpr ⟨a, h, rfl⟩))
      · rw [bump, if_neg hk] at ha
        rcases List.mem_cons.mp ha with h | h
        · right
          rw [List.map_cons]
          exact List.mem_cons.mpr (Or.inl (by rw [h]))
        · rcases ih a h with h' | h'
          · left; exact h'
          · right
            rw [List.map_cons]
            exact List.mem_cons.mpr (Or.inr h')

lemma goodKeys_bump (m : List (String × ℕ)) (d : String) (hm : GoodKeys m) :
    GoodKeys (bump m d) := by
  induction m with
  | nil => simp [bump, GoodKeys]
  | cons kc rest ih =>
      obtain ⟨k, c⟩ := kc
      rw [GoodKeys, List.pairwise_cons] at hm
      by_cases hk : k = d
      · subst hk
        rw [GoodKeys, bump, if_pos rfl, List.pairwise_cons]
        exact ⟨hm.1, hm.2⟩
      · rw [GoodKeys, bump, if_neg hk, List.pairwise_cons]
        refine ⟨?_, ih hm.2⟩
        intro a ha
        rcases fst_mem_bump rest d a ha with h | h
        · rw [h]; exact hk
        · rcases List.mem_map.mp h with ⟨b, hb, hba⟩
          rw [← hba]
          exact hm.1 b hb

lemma lookupC_of_mem (m : List (String × ℕ)) (d : String) (c : ℕ)
    (hm : GoodKeys m) (h : (d, c) ∈ m) : lookupC m d = c := by
  induction m with
  | nil => cases h
  | cons kc rest ih =>
      obtain ⟨k, c'⟩ := kc
      rw [GoodKeys, List.pairwise_cons] at hm
      rcases List.mem_cons.mp h with h' | h'
      · obtain ⟨hk, hc⟩ := Prod.mk.inj h'.symm
        simp [lookupC, hk, hc]
      · have hk : k ≠ d := by
          intro hkd
          exact (hm.1 (d, c) h') (by simp [hkd])
        simp [lookupC, hk, ih hm.2 h']

lemma mem_of_lookupC (m : List (String × ℕ)) (d : String) (c : ℕ)
    (h : lookupC m d = c) (hc : c ≠ 0) : (d, c) ∈ m := by
  induction m with
  | nil => exact absurd h.symm hc
  | cons kc rest ih =>
      obtain ⟨k, c'⟩ := kc
      by_cases hk : k = d
      · subst hk
        rw [lookupC, if_pos rfl] at h
        exact List.mem_cons.mpr (Or.inl (by simp [h]))
      · rw [lookupC, if_neg hk] at h
        exact List.mem_cons.mpr (Or.inr (ih h))

lemma lookupC_foldl_bump (files : List String) (d : String) :
    ∀ m : List (String × ℕ),
      lookupC (files.foldl (fun m f => bump m (dirOf f)) m) d =
        lookupC m d + files.countP (fun f => dirOf f == d) := by
  induction files with
  | nil => intro m; simp
  | cons f rest ih =>
      intro m
      rw [List.foldl_cons, ih (bump m (dirOf f)), lookupC_bump,
        List.countP_cons]
      by_cases h : dirOf f = d <;> simp [h] <;> omega

lemma goodKeys_foldl_bump (files : List String) :
    ∀ m : List (String × ℕ), GoodKeys m →
      GoodKeys (files.foldl (fun m f => bump m (dirOf f)) m) := by
  induction files with
  | nil => intro m hm; simpa using hm
  | cons f rest ih =>
      intro m hm
      exact ih (bump m (dirOf f)) (goodKeys_bump m (dirOf f) hm)

lemma mem_get_completed_uids (files : List String) (d : String) :
    d ∈ get_completed_uids files ↔
      files.countP (fun f => dirOf f == d) = 12 := by
  have hcount : lookupC (dir_counts files) d =
      files.countP (fun f => dirOf f == d) := by
    simpa [lookupC] using lookupC_foldl_bump files d []
  have hgood : GoodKeys (dir_counts files) :=
    goodKeys_foldl_bump files [] (by simp [GoodKeys])
  constructor
  · intro h
    rcases List.mem_map.mp h with ⟨⟨k, c⟩, hk, hkd⟩
    have hc : c = 12 := by simpa using (List.of_mem_filter hk)
    have hkmem : (k, c) ∈ dir_counts files := List.mem_of_mem_filter hk
    have hkd' : k = d := hkd
    subst hkd' hc
    rw [← hcount]
    exact lookupC_of_mem _ _ _ hgood hkmem
  · intro h
    have hmem : (d, 12) ∈ dir_counts files :=
      mem_of_lookupC _ _ _ (by rw [hcount, h]) (by norm_num)
    exact List.mem_map.mpr ⟨(d, 12), List.mem_filter.mpr ⟨hmem, by simp⟩, rfl⟩

/-- C7: with `skip_completed` enabled, the kept identifiers are exactly the
input identifiers whose storage prefix (first `/`-component of the bucket
keys) does not hold exactly 12 objects, in their original order; an
identifier is excluded iff its prefix holds exactly 12 objects. -/
theorem skip_completed_spec (files uids : List String) :
    skip_completed_filter files uids =
      uids.filter (fun u => !(files.countP (fun f => dirOf f == u) == 12)) ∧
    ∀ u, u ∈ skip_completed_filter files uids ↔
      (u ∈ uids ∧ ¬ files.countP (fun f => dirOf f == u) = 12) := by
  have hpt : ∀ u, (!(get_completed_uids files).contains u) =
      (!(files.countP (fun f => dirOf f == u) == 12)) := by
    intro u
    have hiff := mem_get_completed_uids files u
    by_cases h : files.countP (fun f => dirOf f == u) = 12
    · have hc : (get_completed_uids files).contains u = true :=
        List.elem_iff.mpr (hiff.mpr h)
      have hbeq : (files.countP (fun f => dirOf f == u) == 12) = true :=
        beq_iff_eq.mpr h
      rw [hc, hbeq]
    · have hmem : u ∉ get_completed_uids files := fun hm => h (hiff.mp hm)
      have hc : (get_completed_uids files).contains u = false := by
        rcases Bool.eq_false_or_eq_true ((get_completed_uids files).contains u)
          with hb | hb
        · exact absurd (List.elem_iff.mp hb) hmem
        · exact hb
      have hbeq : (files.countP (fun f => dirOf f == u) == 12) = false := by
        simpa using h
      rw [hc, hbeq]
  constructor
  · rw [skip_completed_filter]
    exact List.filter_congr (fun u _ => hpt u)
  · intro u
    rw [skip_completed_filter]
    simp only [List.mem_filter, hpt u]
    simp

lemma splitOf_test (i : ℕ) (h : i % 3 = 2) : splitOf i = "test" := by
  rw [splitOf, if_pos h]

lemma splitOf_val (i : ℕ) (h : i % 3 = 1) : splitOf i = "val" := by
  rw [splitOf, if_neg (by omega), if_pos h]

lemma splitOf_train (i : ℕ) (h2 : i % 3 ≠ 2) (h1 : i % 3 ≠ 1) :
    splitOf i = "train" := by
  rw [splitOf, if_neg h2, if_neg h1]

lemma addFrame_train (fr : Frames) (f : Frame) :
    addFrame fr "train" f = { fr with train := fr.train ++ [f] } := by
  rw [addFrame, if_pos rfl]

lemma addFrame_val (fr : Frames) (f : Frame) :
    addFrame fr "val" f = { fr with val := fr.val ++ [f] } := by
  rw [addFrame, if_neg (by decide), if_pos rfl]

lemma addFrame_test (fr : Frames) (f : Frame) :
    addFrame fr "test" f = { fr with test := fr.test ++ [f] } := by
  rw [addFrame, if_neg (by decide), if_neg (by decide), if_pos rfl]

lemma renderFold_spec (cfg : Config) (uid : String) (cam : ℕ → CamPose)
    (n : ℕ) :
    (List.range n).foldl (renderStep cfg uid cam) ([], ⟨[], [], []⟩) =
      ((List.range n).map (imgPath cfg uid),
       ⟨((List.range n).filter (fun i => splitOf i == "train")).map (frameOf cam),
        ((List.range n).filter (fun i => splitOf i == "val")).map (frameOf cam),
        ((List.range n).filter (fun i => splitOf i == "test")).map (frameOf cam)⟩) := by
  induction n with
  | zero => rfl
  | succ n ih =>
      rw [List.range_succ, List.foldl_append, ih, List.foldl_cons, List.foldl_nil]
      have h3 : n % 3 = 0 ∨ n % 3 = 1 ∨ n % 3 = 2 := by omega
      rcases h3 with h | h | h
      · have hs : splitOf n = "train" := splitOf_train n (by omega) (by omega)
        simp [renderStep, hs, addFrame_train, frameOf, List.filter_append,
          List.map_append]
      · have hs : splitOf n = "val" := splitOf_val n h
        simp [renderStep, hs, addFrame_val, frameOf, List.filter_append,
          List.map_append]
      · have hs : splitOf n = "test" := splitOf_test n h
        simp [renderStep, hs, addFrame_test, frameOf, List.filter_append,
          List.map_append]

lemma renderLoop_spec (cfg : Config) (uid : String) (cam : ℕ → CamPose) :
    renderLoop cfg uid cam =
      ((List.range cfg.num_images).map (imgPath cfg uid),
       ⟨((List.range cfg.num_images).filter
           (fun i => splitOf i == "train")).map (frameOf cam),
        ((List.range cfg.num_images).filter
           (fun i => splitOf i == "val")).map (frameOf cam),
        ((List.range cfg.num_images).filter
           (fun i => splitOf i == "test")).map (frameOf cam)⟩) :=
  renderFold_spec cfg uid cam cfg.num_images

/-- C1: the render loop assigns frame `i` to exactly one split — `test`
when `i % 3 = 2`, `val` when `i % 3 = 1`, `train` otherwise — renders its
image to that split's directory (`imgPath` places `splitOf i` in the
path), and appends its pose record to exactly that split's list: each
split list holds precisely the records of the indices with that split. -/
theorem split_assignment_round_robin (cfg : Config) (uid : String)
    (cam : ℕ → CamPose) :
    (∀ i, (splitOf i = "test" ↔ i % 3 = 2) ∧
      (splitOf i = "val" ↔ i % 3 = 1) ∧
      (splitOf i = "train" ↔ (i % 3 ≠ 2 ∧ i % 3 ≠ 1))) ∧
    (∀ i, imgPath cfg uid i =
      cfg.output_dir ++ "/" ++ uid ++ "/" ++ splitOf i ++ "/" ++
        zfill 3 (Nat.repr i) ++ ".png") ∧
    (renderLoop cfg uid cam).1 =
      (List.range cfg.num_images).map (imgPath cfg uid) ∧
    (renderLoop cfg uid cam).2.train =
      ((List.range cfg.num_images).filter
        (fun i => splitOf i == "train")).map (frameOf cam) ∧
    (renderLoop cfg uid cam).2.val =
      ((List.range cfg.num_images).filter
        (fun i => splitOf i == "val")).map (frameOf cam) ∧
    (renderLoop cfg uid cam).2.test =
      ((List.range cfg.num_images).filter
        (fun i => splitOf i == "test")).map (frameOf cam) := by
  refine ⟨?_, fun i => rfl, ?_, ?_, ?_, ?_⟩
  · intro i
    have h3 : i % 3 = 0 ∨ i % 3 = 1 ∨ i % 3 = 2 := by omega
    rcases h3 with h | h | h
    · have hs : splitOf i = "train" := splitOf_train i (by omega) (by omega)
      refine ⟨⟨fun he => ?_, fun he => by omega⟩,
        ⟨fun he => ?_, fun he => by omega⟩, ⟨fun _ => by omega, fun _ => hs⟩⟩
      · rw [hs] at he; exact absurd he (by decide)
      · rw [hs] at he; exact absurd he (by decide)
    · have hs : splitOf i = "val" := splitOf_val i h
      refine ⟨⟨fun he => ?_, fun he => by omega⟩,
        ⟨fun _ => h, fun _ => hs⟩, ⟨fun he => ?_, fun he => by omega⟩⟩
      · rw [hs] at he; exact absurd he (by decide)
      · rw [hs] at he; exact absurd he (by decide)
    · have hs : splitOf i = "test" := splitOf_test i h
      refine ⟨⟨fun _ => h, fun _ => hs⟩,
        ⟨fun he => ?_, fun he => by omega⟩, ⟨fun he => ?_, fun he => by omega⟩⟩
      · rw [hs] at he; exact absurd he (by decide)
      · rw [hs] at he; exact absurd he (by decide)
  · rw [renderLoop_spec]
  · rw [renderLoop_spec]
  · rw [renderLoop_spec]
  · rw [renderLoop_spec]

lemma get_frame_poses_matrix (pos : Fin 3 → ℚ) (rt : Fin 3 → Fin 3 → ℚ)
    (i : ℕ) (mode : String) :
    (get_frame_poses pos rt i mode).transform_matrix =
      [[rt 0 0, rt 0 1, rt 0 2, pos 0],
       [rt 1 0, rt 1 1, rt 1 2, pos 1],
       [rt 2 0, rt 2 1, rt 2 2, pos 2],
       [0, 0, 0, 1]] := by
  rw [get_frame_poses, show (List.finRange 3) = [0, 1, 2] from rfl]
  simp

/-- C8: every Camera Pose Record produced by the render loop, in every
split list, is the 4×4 matrix whose rows 0-2 are the camera rotation rows
with the camera position as fourth column and whose last row is exactly
`[0, 0, 0, 1]`; the first conjunct states the shape for `get_frame_poses`
at arbitrary pose data, the second instantiates it for every record of
any of the three split lists. -/
theorem frame_pose_matrix_shape (cfg : Config) (uid : String)
    (cam : ℕ → CamPose) :
    (∀ pos rt i mode, (get_frame_poses pos rt i mode).transform_matrix =
      [[rt 0 0, rt 0 1, rt 0 2, pos 0],
       [rt 1 0, rt 1 1, rt 1 2, pos 1],
       [rt 2 0, rt 2 1, rt 2 2, pos 2],
       [0, 0, 0, 1]]) ∧
    ((renderLoop cfg uid cam).2.train ++ (renderLoop cfg uid cam).2.val ++
        (renderLoop cfg uid cam).2.test).Forall (fun f =>
      ∃ i, i < cfg.num_images ∧ f = frameOf cam i ∧
        f.transform_matrix.getLastD [] = [0, 0, 0, 1] ∧
        f.transform_matrix =
          [[(cam i).2 0 0, (cam i).2 0 1, (cam i).2 0 2, (cam i).1 0],
           [(cam i).2 1 0, (cam i).2 1 1, (cam i).2 1 2, (cam i).1 1],
           [(cam i).2 2 0, (cam i).2 2 1, (cam i).2 2 2, (cam i).1 2],
           [0, 0, 0, 1]]) := by
  refine ⟨get_frame_poses_matrix, ?_⟩
  rw [List.forall_iff_forall_mem]
  intro f hf
  rw [renderLoop_spec] at hf
  have hf' : ∃ i ∈ List.range cfg.num_images, f = frameOf cam i := by
    simp only [List.mem_append, or_assoc] at hf
    rcases hf with h | h | h <;>
    · rcases List.mem_map.mp h with ⟨i, hi, hfi⟩
      exact ⟨i, List.mem_of_mem_filter hi, hfi.symm⟩
  rcases hf' with ⟨i, hi, hfi⟩
  refine ⟨i, List.mem_range.mp hi, hfi, ?_, ?_⟩
  · rw [hfi, frameOf, get_frame_poses_matrix]
    rfl
  · rw [hfi, frameOf, get_frame_poses_matrix]

/-- C4: when the asset's derived identifier already has a
`transforms_train.json` under the output directory, `save_images` returns
normally right after `os.makedirs(output_dir, exist_ok=True)`: its whole
effect trace is that single `makedirs` — no reset, no import, no render,
no manifest write, no mesh export — for every oracle and every asset. -/
theorem save_images_idempotent_skip (cfg : Config) (bl : BlenderOracle)
    (fs : FS) (object_file : String)
    (h : transformsPath cfg (object_uid object_file) ("train") ∈ fs) :
    save_images cfg bl fs object_file =
      ([Effect.makedirs cfg.output_dir], .ok ()) ∧
    ∀ e ∈ (save_images cfg bl fs object_file).1,
      e = Effect.makedirs cfg.output_dir := by
  have heq : save_images cfg bl fs object_file =
      ([Effect.makedirs cfg.output_dir], .ok ()) := by
    rw [save_images]
    exact if_pos h
  refine ⟨heq, ?_⟩
  intro e he
  rw [heq] at he
  exact List.mem_singleton.mp he

/-- C4 witness: a concrete run on `chair.glb` with the manifest present. -/
theorem save_images_idempotent_skip_witness :
    transformsPath ⟨"out", 3, 4⟩ (object_uid "chair.glb") ("train") ∈
      (["out/chair/transforms_train.json"] : FS) ∧
    save_images ⟨"out", 3, 4⟩
        ⟨fun _ => (fun _ => 0, fun _ _ => 0), .ok (), [], .ok ()⟩
        ["out/chair/transforms_train.json"] "chair.glb" =
      ([Effect.makedirs "out"], .ok ()) := by
  have h : transformsPath ⟨"out", 3, 4⟩ (object_uid "chair.glb") ("train") ∈
      (["out/chair/transforms_train.json"] : FS) := by
    rw [show transformsPath ⟨"out", 3, 4⟩ (object_uid "chair.glb") ("train") =
      "out/chair/transforms_train.json" from rfl]
    exact List.mem_singleton.mpr rfl
  exact ⟨h, (save_images_idempotent_skip ⟨"out", 3, 4⟩
    ⟨fun _ => (fun _ => 0, fun _ _ => 0), .ok (), [], .ok ()⟩
    ["out/chair/transforms_train.json"] "chair.glb" h).1⟩

/-- C9: whenever the try body terminates by raising, the top-level handler
appends exactly two log lines — the asset reference and the exception
message — to the trace so far, and `runCapturer` returns normally (it is a
total function into plain traces): no re-raise, no retry, and no effect
beyond the two logs (in particular no cleanup of partial output). -/
theorem capturer_catch_all (cfg : Config) (bl : BlenderOracle) (fs : FS)
    (object_path : String) (t : List Effect) (e : PyExc)
    (h : tryBody cfg bl fs object_path = (t, .error e)) :
    runCapturer cfg bl fs object_path =
      t ++ [Effect.log ("Failed to render " ++ object_path),
            Effect.log (excMessage e)] ∧
    ∀ x ∈ runCapturer cfg bl fs object_path,
      x ∈ t ∨ x = Effect.log ("Failed to render " ++ object_path) ∨
        x = Effect.log (excMessage e) := by
  have heq : runCapturer cfg bl fs object_path =
      t ++ [Effect.log ("Failed to render " ++ object_path),
            Effect.log (excMessage e)] := by
    rw [runCapturer, h]
  refine ⟨heq, ?_⟩
  intro x hx
  rw [heq] at hx
  rcases List.mem_append.mp hx with hx | hx
  · exact Or.inl hx
  · rcases List.mem_cons.mp hx with hx | hx
    · exact Or.inr (Or.inl hx)
    · exact Or.inr (Or.inr (List.mem_singleton.mp hx))

/-- C9 witness: a failing glTF import on `chair.glb` is caught and logged. -/
theorem capturer_catch_all_witness :
    tryBody ⟨"out", 3, 4⟩
        ⟨fun _ => (fun _ => 0, fun _ _ => 0), .error (.valueError "boom"),
         [], .ok ()⟩ [] "chair.glb" =
      ([Effect.makedirs "out", Effect.reset], .error (.valueError "boom")) ∧
    runCapturer ⟨"out", 3, 4⟩
        ⟨fun _ => (fun _ => 0, fun _ _ => 0), .error (.valueError "boom"),
         [], .ok ()⟩ [] "chair.glb" =
      [Effect.makedirs "out", Effect.reset,
       Effect.log "Failed to render chair.glb", Effect.log "boom"] := by
  have h : tryBody ⟨"out", 3, 4⟩
      ⟨fun _ => (fun _ => 0, fun _ _ => 0), .error (.valueError "boom"),
       [], .ok ()⟩ [] "chair.glb" =
      ([Effect.makedirs "out", Effect.reset], .error (.valueError "boom")) := by
    rfl
  refine ⟨h, ?_⟩
  rw [(capturer_catch_all ⟨"out", 3, 4⟩
    ⟨fun _ => (fun _ => 0, fun _ _ => 0), .error (.valueError "boom"),
     [], .ok ()⟩ [] "chair.glb" _ _ h).1]
  rfl

/-- C10: called on a scene with at least one mesh object, `join_meshes`
succeeds (the `assert len(meshes) == 1` holds), exactly one mesh object
remains in the scene, and that single mesh is the returned value. -/
theorem join_meshes_single_mesh (objs : List SceneObj)
    (h : scene_meshes objs ≠ []) :
    ∃ s m, join_meshes objs = .ok (s, m) ∧ scene_meshes s = [m] := by
  rcases hlast : (scene_meshes objs).getLast? with _ | a
  · exact absurd (List.getLast?_eq_none_iff.mp hlast) h
  · have ha : a ∈ scene_meshes objs := List.mem_of_mem_getLast? hlast
    have haMesh : a.isMesh = true := List.of_mem_filter ha
    have hfil : (objs.filter (fun o => !o.isMesh) ++ [a]).filter
        (fun o => o.isMesh) = [a] := by
      rw [List.filter_append, List.filter_filter]
      have h1 : objs.filter (fun o => o.isMesh && !o.isMesh) = [] := by
        simp
      rw [h1]
      simp [haMesh]
    refine ⟨objs.filter (fun o => !o.isMesh) ++ [a], a, ?_, hfil⟩
    rw [join_meshes, hlast]
    simp only [hfil]

/-- C10 witness: joining a one-mesh scene. -/
theorem join_meshes_single_mesh_witness :
    ∃ s m, join_meshes [⟨true, (0, 0, 0), fun _ => (0, 0, 0)⟩] = .ok (s, m) ∧
      scene_meshes s = [m] :=
  join_meshes_single_mesh [⟨true, (0, 0, 0), fun _ => (0, 0, 0)⟩]
    (by simp [scene_meshes])

lemma insertDesc_perm (key : α → ℤ) (x : α) (l : List α) :
    (insertDesc key x l).Perm (x :: l) := by
  induction l with
  | nil => exact List.Perm.refl [x]
  | cons y ys ih =>
      rw [insertDesc]
      by_cases h : key x < key y
      · rw [if_pos h]
        exact (ih.cons y).trans (List.Perm.swap x y ys)
      · rw [if_neg h]

lemma sortDesc_perm (key : α → ℤ) (l : List α) : (sortDesc key l).Perm l := by
  induction l with
  | nil => exact List.Perm.refl []
  | cons x xs ih =>
      rw [sortDesc]
      exact (insertDesc_perm key x (sortDesc key xs)).trans (ih.cons x)

lemma insertDesc_sorted (key : α → ℤ) (x : α) (l : List α)
    (hl : l.Pairwise (fun a b => key b ≤ key a)) :
    (insertDesc key x l).Pairwise (fun a b => key b ≤ key a) := by
  induction l with
  | nil => simp [insertDesc]
  | cons y ys ih =>
      have hl' := hl
      rw [List.pairwise_cons] at hl
      rw [insertDesc]
      by_cases h : key x < key y
      · rw [if_pos h, List.pairwise_cons]
        refine ⟨?_, ih hl.2⟩
        intro z hz
        have hz2 : z ∈ x :: ys := (insertDesc_perm key x ys).mem_iff.mp hz
        rcases List.mem_cons.mp hz2 with hz3 | hz3
        · rw [hz3]
          exact le_of_lt h
        · exact hl.1 z hz3
      · rw [if_neg h, List.pairwise_cons]
        refine ⟨?_, hl'⟩
        intro z hz
        rcases List.mem_cons.mp hz with hz | hz
        · rw [hz]
          exact not_lt.mp h
        · exact le_trans (hl.1 z hz) (not_lt.mp h)

lemma sortDesc_sorted (key : α → ℤ) (l : List α) :
    (sortDesc key l).Pairwise (fun a b => key b ≤ key a) := by
  induction l with
  | nil => simp [sortDesc]
  | cons x xs ih => exact insertDesc_sorted key x _ ih

lemma filter_insertDesc (key : α → ℤ) (v : ℤ) (x : α) (l : List α) :
    (insertDesc key x l).filter (fun a => key a == v) =
      if key x == v then x :: l.filter (fun a => key a == v)
      else l.filter (fun a => key a == v) := by
  induction l with
  | nil => by_cases h : key x = v <;> simp [insertDesc, h]
  | cons y ys ih =>
      rw [insertDesc]
      by_cases h : key x < key y
      · rw [if_pos h]
        by_cases hy : key y = v
        · have hx : ¬ key x = v := by
            intro he
            rw [he, hy] at h
            exact lt_irrefl v h
          simp [List.filter_cons, hy, hx, ih]
        · simp [List.filter_cons, hy, ih]
      · rw [if_neg h]
        by_cases hx : key x = v <;> simp [List.filter_cons, hx]

lemma filter_sortDesc (key : α → ℤ) (v : ℤ) (l : List α) :
    (sortDesc key l).filter (fun a => key a == v) =
      l.filter (fun a => key a == v) := by
  induction l with
  | nil => rfl
  | cons x xs ih =>
      rw [sortDesc, filter_insertDesc, List.filter_cons]
      by_cases hx : key x = v <;> simp [hx, ih]

/-- C3: with no manifest loaded, the Selector output equals
`take n_objects` of the stable descending sort of the slice
`shuffle(catalog)[start_i:end_i]`; it is deterministic in the catalog
snapshot, sorted by descending popularity, drawn from the slice, of length
`min n_objects |slice|`, popularity-dominates everything it dropped, and
breaks popularity ties by the original post-slice order (its restriction
to any fixed popularity value is a prefix of the slice's restriction). -/
theorem selector_recompute_spec (shuffle : List String → List String)
    (likeCount : String → ℤ) (catalog : List String)
    (start_i end_i n_objects : ℕ) :
    selectorRecompute shuffle likeCount catalog start_i end_i n_objects =
      (sortDesc likeCount (pySlice (shuffle catalog) start_i end_i)).take
        n_objects ∧
    (∀ catalog2, catalog2 = catalog →
      selectorRecompute shuffle likeCount catalog2 start_i end_i n_objects =
        selectorRecompute shuffle likeCount catalog start_i end_i n_objects) ∧
    List.Pairwise (fun a b => likeCount b ≤ likeCount a)
      (selectorRecompute shuffle likeCount catalog start_i end_i n_objects) ∧
    (∀ x ∈ selectorRecompute shuffle likeCount catalog start_i end_i n_objects,
      x ∈ pySlice (shuffle catalog) start_i end_i) ∧
    (selectorRecompute shuffle likeCount catalog start_i end_i
        n_objects).length =
      min n_objects (pySlice (shuffle catalog) start_i end_i).length ∧
    (∀ x ∈ selectorRecompute shuffle likeCount catalog start_i end_i n_objects,
      ∀ y ∈ (sortDesc likeCount
          (pySlice (shuffle catalog) start_i end_i)).drop n_objects,
        likeCount y ≤ likeCount x) ∧
    (∀ v, (selectorRecompute shuffle likeCount catalog start_i end_i
        n_objects).filter (fun a => likeCount a == v) <+:
      (pySlice (shuffle catalog) start_i end_i).filter
        (fun a => likeCount a == v)) := by
  refine ⟨rfl, fun catalog2 hc => by rw [hc], ?_, ?_, ?_, ?_, ?_⟩
  · exact List.Pairwise.sublist (List.take_sublist n_objects _)
      (sortDesc_sorted likeCount (pySlice (shuffle catalog) start_i end_i))
  · intro x hx
    have hx' : x ∈ sortDesc likeCount (pySlice (shuffle catalog) start_i end_i) :=
      (List.take_sublist n_objects _).subset hx
    exact (sortDesc_perm likeCount _).mem_iff.mp hx'
  · rw [show selectorRecompute shuffle likeCount catalog start_i end_i
        n_objects =
      (sortDesc likeCount (pySlice (shuffle catalog) start_i end_i)).take
        n_objects from rfl]
    rw [List.length_take,
      (sortDesc_perm likeCount (pySlice (shuffle catalog) start_i end_i)).length_eq]
  · intro x hx y hy
    have hsorted := sortDesc_sorted likeCount
      (pySlice (shuffle catalog) start_i end_i)
    rw [← List.take_append_drop n_objects
      (sortDesc likeCount (pySlice (shuffle catalog) start_i end_i))] at hsorted
    exact (List.pairwise_append.mp hsorted).2.2 x hx y hy
  · intro v
    have h1 : (selectorRecompute shuffle likeCount catalog start_i end_i
        n_objects).filter (fun a => likeCount a == v) <+:
        (sortDesc likeCount (pySlice (shuffle catalog) start_i end_i)).filter
          (fun a => likeCount a == v) :=
      List.IsPrefix.filter _ (List.take_prefix n_objects _)
    rw [filter_sortDesc] at h1
    exact h1

/-- C3 witness: a concrete four-uid catalog with identity shuffle; `"b"`
is most liked, ties at popularity 3 keep slice order, so the top 2 are
`["b", "a"]`; equal catalog snapshots give equal output. -/
theorem selector_recompute_spec_witness :
    selectorRecompute id (fun s => if s = "b" then (5 : ℤ) else 3)
        (["a", "b"] ++ ["c", "d"]) 0 4 2 =
      selectorRecompute id (fun s => if s = "b" then (5 : ℤ) else 3)
        ["a", "b", "c", "d"] 0 4 2 ∧
    selectorRecompute id (fun s => if s = "b" then (5 : ℤ) else 3)
      ["a", "b", "c", "d"] 0 4 2 = ["b", "a"] ∧
    ("a" : String) ∈ pySlice (id ["a", "b", "c", "d"]) 0 4 ∧
    (fun s : String => if s = "b" then (5 : ℤ) else 3) "c" ≤
      (fun s : String => if s = "b" then (5 : ℤ) else 3) "a" := by
  have h := selector_recompute_spec id
    (fun s => if s = "b" then (5 : ℤ) else 3) ["a", "b", "c", "d"] 0 4 2
  have hres : selectorRecompute id (fun s => if s = "b" then (5 : ℤ) else 3)
      ["a", "b", "c", "d"] 0 4 2 = ["b", "a"] := by
    rw [h.1]
    rfl
  have hmem : ("a" : String) ∈ selectorRecompute id
      (fun s => if s = "b" then (5 : ℤ) else 3) ["a", "b", "c", "d"] 0 4 2 := by
    rw [hres]
    exact List.mem_cons.mpr (Or.inr (List.mem_singleton.mpr rfl))
  refine ⟨h.2.1 (["a", "b"] ++ ["c", "d"]) rfl, hres,
    h.2.2.2.1 "a" hmem, ?_⟩
  have hdrop : ("c" : String) ∈ (sortDesc
      (fun s => if s = "b" then (5 : ℤ) else 3)
      (pySlice (id ["a", "b", "c", "d"]) 0 4)).drop 2 := by
    rw [show (sortDesc (fun s : String => if s = "b" then (5 : ℤ) else 3)
      (pySlice (id ["a", "b", "c", "d"]) 0 4)).drop 2 = ["c", "d"] from rfl]
    exact List.mem_cons.mpr (Or.inl rfl)
  exact h.2.2.2.2.2.1 "a" hmem "c" hdrop

lemma min_affine (c o a b : ℚ) (hc : 0 ≤ c) :
    min (o + c * (a - o)) (o + c * (b - o)) = o + c * (min a b - o) := by
  rcases le_total a b with h | h
  · rw [min_eq_left h, min_eq_left]
    have := mul_le_mul_of_nonneg_left (sub_le_sub_right h o) hc
    linarith
  · rw [min_eq_right h, min_eq_right]
    have := mul_le_mul_of_nonneg_left (sub_le_sub_right h o) hc
    linarith

lemma max_affine (c o a b : ℚ) (hc : 0 ≤ c) :
    max (o + c * (a - o)) (o + c * (b - o)) = o + c * (max a b - o) := by
  rcases le_total a b with h | h
  · rw [max_eq_right h, max_eq_right]
    have := mul_le_mul_of_nonneg_left (sub_le_sub_right h o) hc
    linarith
  · rw [max_eq_left h, max_eq_left]
    have := mul_le_mul_of_nonneg_left (sub_le_sub_right h o) hc
    linarith

lemma affMap_comp (c : ℚ) (o p : Vec3) :
    affMap c o p = (o.1 + c * (p.1 - o.1), o.2.1 + c * (p.2.1 - o.2.1),
      o.2.2 + c * (p.2.2 - o.2.2)) := by
  obtain ⟨o1, o2, o3⟩ := o
  obtain ⟨p1, p2, p3⟩ := p
  simp [affMap, Prod.ext_iff, smul_eq_mul]

lemma vmin_affMap (c : ℚ) (o : Vec3) (hc : 0 ≤ c) (a b : Vec3) :
    vmin (affMap c o a) (affMap c o b) = affMap c o (vmin a b) := by
  rw [affMap_comp, affMap_comp, affMap_comp, vmin, vmin]
  exact Prod.ext (min_affine c o.1 a.1 b.1 hc)
    (Prod.ext (min_affine c o.2.1 a.2.1 b.2.1 hc)
      (min_affine c o.2.2 a.2.2 b.2.2 hc))

lemma vmax_affMap (c : ℚ) (o : Vec3) (hc : 0 ≤ c) (a b : Vec3) :
    vmax (affMap c o a) (affMap c o b) = affMap c o (vmax a b) := by
  rw [affMap_comp, affMap_comp, affMap_comp, vmax, vmax]
  exact Prod.ext (max_affine c o.1 a.1 b.1 hc)
    (Prod.ext (max_affine c o.2.1 a.2.1 b.2.1 hc)
      (max_affine c o.2.2 a.2.2 b.2.2 hc))

lemma add_comp (p t : Vec3) : p + t = (p.1 + t.1, p.2.1 + t.2.1, p.2.2 + t.2.2) := by
  obtain ⟨p1, p2, p3⟩ := p
  obtain ⟨t1, t2, t3⟩ := t
  simp [Prod.ext_iff]

lemma vmin_translate (t a b : Vec3) : vmin (a + t) (b + t) = vmin a b + t := by
  rw [add_comp, add_comp, add_comp, vmin, vmin]
  exact Prod.ext (min_add_add_right a.1 b.1 t.1)
    (Prod.ext (min_add_add_right a.2.1 b.2.1 t.2.1)
      (min_add_add_right a.2.2 b.2.2 t.2.2))

lemma vmax_translate (t a b : Vec3) : vmax (a + t) (b + t) = vmax a b + t := by
  rw [add_comp, add_comp, add_comp, vmax, vmax]
  exact Prod.ext (max_add_add_right a.1 b.1 t.1)
    (Prod.ext (max_add_add_right a.2.1 b.2.1 t.2.1)
      (max_add_add_right a.2.2 b.2.2 t.2.2))

lemma foldl_vmin_map (u : Vec3 → Vec3)
    (hu : ∀ a b, vmin (u a) (u b) = u (vmin a b)) :
    ∀ (l : List Vec3) (p : Vec3),
      (l.map u).foldl vmin (u p) = u (l.foldl vmin p) := by
  intro l
  induction l with
  | nil => intro p; rfl
  | cons x xs ih =>
      intro p
      rw [List.map_cons, List.foldl_cons, List.foldl_cons, hu, ih]

lemma foldl_vmax_map (u : Vec3 → Vec3)
    (hu : ∀ a b, vmax (u a) (u b) = u (vmax a b)) :
    ∀ (l : List Vec3) (p : Vec3),
      (l.map u).foldl vmax (u p) = u (l.foldl vmax p) := by
  intro l
  induction l with
  | nil => intro p; rfl
  | cons x xs ih =>
      intro p
      rw [List.map_cons, List.foldl_cons, List.foldl_cons, hu, ih]

lemma vbounds_map (u : Vec3 → Vec3)
    (humin : ∀ a b, vmin (u a) (u b) = u (vmin a b))
    (humax : ∀ a b, vmax (u a) (u b) = u (vmax a b)) (p : Vec3) (l : List Vec3) :
    vbounds (u p) (l.map u) = (u (vbounds p l).1, u (vbounds p l).2) := by
  rw [vbounds, vbounds, foldl_vmin_map u humin, foldl_vmax_map u humax]

lemma cornersList_map (F : SceneObj → SceneObj) (u : Vec3 → Vec3) (o : SceneObj)
    (hcor : ∀ i, (F o).corner i = u (o.corner i)) :
    cornersList (F o) = (cornersList o).map u := by
  rw [cornersList, cornersList, List.map_map]
  exact List.map_congr_left (fun i _ => hcor i)

lemma allCorners_map (F : SceneObj → SceneObj) (u : Vec3 → Vec3) :
    ∀ (l : List SceneObj),
      (∀ o ∈ l, ∀ i, (F o).corner i = u (o.corner i)) →
      allCorners (l.map F) = (allCorners l).map u := by
  intro l
  induction l with
  | nil => intro _; rfl
  | cons o rest ih =>
      intro h
      rw [List.map_cons, allCorners, allCorners, List.flatMap_cons,
        List.flatMap_cons, List.map_append]
      rw [cornersList_map F u o (h o (List.mem_cons_self o rest))]
      have := ih (fun o' ho' => h o' (List.mem_cons_of_mem o ho'))
      rw [allCorners, allCorners] at this
      rw [this]

lemma scene_meshes_map (F : SceneObj → SceneObj)
    (hmesh : ∀ o, (F o).isMesh = o.isMesh) (l : List SceneObj) :
    scene_meshes (l.map F) = (scene_meshes l).map F := by
  rw [scene_meshes, scene_meshes, List.filter_map]
  congr 1
  exact List.filter_congr (fun o _ => by
    show ((fun o => o.isMesh) ∘ F) o = o.isMesh
    exact hmesh o)

lemma scene_bbox_nil (objs : List SceneObj) (hms : scene_meshes objs = []) :
    scene_bbox objs =
      .error (.runtimeError ("no objects in scene to compute bounding box for")) := by
  unfold scene_bbox
  rw [hms]

lemma scene_bbox_cons (objs : List SceneObj) (m : SceneObj)
    (rest : List SceneObj) (hms : scene_meshes objs = m :: rest) :
    scene_bbox objs = .ok (vbounds (m.corner 0) (allCorners (m :: rest))) := by
  unfold scene_bbox
  rw [hms]

lemma scene_bbox_map (objs : List SceneObj) (F : SceneObj → SceneObj)
    (u : Vec3 → Vec3)
    (hmesh : ∀ o, (F o).isMesh = o.isMesh)
    (hcor : ∀ o ∈ scene_meshes objs, ∀ i, (F o).corner i = u (o.corner i))
    (humin : ∀ a b, vmin (u a) (u b) = u (vmin a b))
    (humax : ∀ a b, vmax (u a) (u b) = u (vmax a b))
    (a b : Vec3) (h : scene_bbox objs = .ok (a, b)) :
    scene_bbox (objs.map F) = .ok (u a, u b) := by
  rcases hms : scene_meshes objs with _ | ⟨m, rest⟩
  · rw [scene_bbox_nil objs hms] at h
    cases h
  · rw [scene_bbox_cons objs m rest hms] at h
    have hms' : scene_meshes (objs.map F) = F m :: rest.map F := by
      rw [scene_meshes_map F hmesh, hms, List.map_cons]
    rw [scene_bbox_cons (objs.map F) (F m) (rest.map F) hms']
    have hmem : ∀ o ∈ m :: rest, ∀ i, (F o).corner i = u (o.corner i) := by
      intro o ho
      exact hcor o (hms ▸ ho)
    have hall : allCorners ((m :: rest).map F) = (allCorners (m :: rest)).map u :=
      allCorners_map F u (m :: rest) hmem
    rw [List.map_cons] at hall
    rw [hall, hmem m (List.mem_cons_self m rest) 0,
      vbounds_map u humin humax (m.corner 0) (allCorners (m :: rest))]
    have hab : vbounds (m.corner 0) (allCorners (m :: rest)) = (a, b) := by
      injection h
    rw [hab]

lemma foldl_vmin_le (f : Vec3 → ℚ)
    (hf : ∀ a b, f (vmin a b) = min (f a) (f b)) :
    ∀ (l : List Vec3) (p : Vec3), f (l.foldl vmin p) ≤ f p := by
  intro l
  induction l with
  | nil => intro p; exact le_refl _
  | cons x xs ih =>
      intro p
      rw [List.foldl_cons]
      exact le_trans (ih (vmin p x)) (by rw [hf]; exact min_le_left _ _)

lemma le_foldl_vmax (f : Vec3 → ℚ)
    (hf : ∀ a b, f (vmax a b) = max (f a) (f b)) :
    ∀ (l : List Vec3) (p : Vec3), f p ≤ f (l.foldl vmax p) := by
  intro l
  induction l with
  | nil => intro p; exact le_refl _
  | cons x xs ih =>
      intro p
      rw [List.foldl_cons]
      exact le_trans (by rw [hf]; exact le_max_left _ _) (ih (vmax p x))


lemma maxDim_nonneg_of_bbox (objs : List SceneObj) (a b : Vec3)
    (h : scene_bbox objs = .ok (a, b)) : 0 ≤ maxDim (b - a) := by
  rcases hms : scene_meshes objs with _ | ⟨m, rest⟩
  · rw [scene_bbox_nil objs hms] at h
    cases h
  · rw [scene_bbox_cons objs m rest hms] at h
    have hab : vbounds (m.corner 0) (allCorners (m :: rest)) = (a, b) := by
      injection h
  
    have ha : (vbounds (m.corner 0) (allCorners (m :: rest))).1 = a :=
      congrArg Prod.fst hab
    have hb : (vbounds (m.corner 0) (allCorners (m :: rest))).2 = b :=
      congrArg Prod.snd hab
    have h1 : a.1 ≤ (m.corner 0).1 := by
      rw [← ha]
      exact foldl_vmin_le (fun v => v.1) (fun x y => rfl) _ _
    have h2 : (m.corner 0).1 ≤ b.1 := by
      rw [← hb]
      exact le_foldl_vmax (fun v => v.1) (fun x y => rfl) _ _
    have hsub : (b - a).1 = b.1 - a.1 := rfl
    have h0 : 0 ≤ (b - a).1 := by
      rw [hsub]
      linarith
    exact le_trans h0 (le_max_left _ _)

lemma affMap_sub (c : ℚ) (o a b : Vec3) :
    affMap c o b - affMap c o a = c • (b - a) := by
  obtain ⟨o1, o2, o3⟩ := o
  obtain ⟨a1, a2, a3⟩ := a
  obtain ⟨b1, b2, b3⟩ := b
  rw [affMap_comp, affMap_comp]
  show ((o1 + c * (b1 - o1)) - (o1 + c * (a1 - o1)),
        (o2 + c * (b2 - o2)) - (o2 + c * (a2 - o2)),
        (o3 + c * (b3 - o3)) - (o3 + c * (a3 - o3))) =
      (c * (b1 - a1), c * (b2 - a2), c * (b3 - a3))
  exact Prod.ext (by ring) (Prod.ext (by ring) (by ring))

lemma translate_sub (t a b : Vec3) : (b + t) - (a + t) = b - a := by
  obtain ⟨t1, t2, t3⟩ := t
  obtain ⟨a1, a2, a3⟩ := a
  obtain ⟨b1, b2, b3⟩ := b
  show ((b1 + t1) - (a1 + t1), (b2 + t2) - (a2 + t2), (b3 + t3) - (a3 + t3)) =
      (b1 - a1, b2 - a2, b3 - a3)
  exact Prod.ext (by ring) (Prod.ext (by ring) (by ring))

lemma mul_max_nonneg (c x y : ℚ) (hc : 0 ≤ c) :
    max (c * x) (c * y) = c * max x y := by
  rcases le_total x y with h | h
  · rw [max_eq_right h, max_eq_right (mul_le_mul_of_nonneg_left h hc)]
  · rw [max_eq_left h, max_eq_left (mul_le_mul_of_nonneg_left h hc)]

lemma maxDim_smul (c : ℚ) (v : Vec3) (hc : 0 ≤ c) :
    maxDim (c • v) = c * maxDim v := by
  obtain ⟨v1, v2, v3⟩ := v
  rw [maxDim, maxDim]
  show max (c * v1) (max (c * v2) (c * v3)) = c * max v1 (max v2 v3)
  rw [mul_max_nonneg c v2 v3 hc, mul_max_nonneg c v1 (max v2 v3) hc]

lemma center_sum (a1 b1 : Vec3) :
    (a1 + -((2 : ℚ)⁻¹ • (a1 + b1))) + (b1 + -((2 : ℚ)⁻¹ • (a1 + b1))) = 0 := by
  obtain ⟨x1, x2, x3⟩ := a1
  obtain ⟨y1, y2, y3⟩ := b1
  show (x1 + -(2⁻¹ * (x1 + y1)) + (y1 + -(2⁻¹ * (x1 + y1))),
        x2 + -(2⁻¹ * (x2 + y2)) + (y2 + -(2⁻¹ * (x2 + y2))),
        x3 + -(2⁻¹ * (x3 + y3)) + (y3 + -(2⁻¹ * (x3 + y3)))) = ((0 : ℚ), (0 : ℚ), (0 : ℚ))
  exact Prod.ext (by ring) (Prod.ext (by ring) (by ring))

lemma normalize_scene_steps (scale : ℚ) (objs : List SceneObj) (a b : Vec3)
    (c : ℚ) (a1 b1 : Vec3) (t : Vec3)
    (hbb : scene_bbox objs = .ok (a, b))
    (hd : ¬ maxDim (b - a) = 0)
    (hc : scale / maxDim (b - a) = c)
    (hbb1 : scene_bbox (objs.map (scaleObj c)) = .ok (a1, b1))
    (ht : -((2 : ℚ)⁻¹ • (a1 + b1)) = t) :
    normalize_scene scale objs =
      .ok ((objs.map (scaleObj c)).map (translateObj t)) := by
  unfold normalize_scene
  rw [hbb]
  show (if maxDim (b - a) = 0 then
      Except.error (PyExc.zeroDivisionError ("float division by zero"))
    else _) = _
  rw [if_neg hd, hc, hbb1]
  show Except.ok ((objs.map (scaleObj c)).map
    (translateObj (-((2 : ℚ)⁻¹ • (a1 + b1))))) = _
  rw [ht]

lemma normalize_scene_ok (scale : ℚ) (objs : List SceneObj) (s : List SceneObj)
    (h : normalize_scene scale objs = .ok s) :
    ∃ a b a1 b1, scene_bbox objs = .ok (a, b) ∧ ¬ maxDim (b - a) = 0 ∧
      scene_bbox (objs.map (scaleObj (scale / maxDim (b - a)))) = .ok (a1, b1) ∧
      s = (objs.map (scaleObj (scale / maxDim (b - a)))).map
            (translateObj (-((2 : ℚ)⁻¹ • (a1 + b1)))) := by
  unfold normalize_scene at h
  rcases hbb : scene_bbox objs with e | ⟨a, b⟩
  · rw [hbb] at h
    cases h
  · rw [hbb] at h
    change (if maxDim (b - a) = 0 then
        Except.error (PyExc.zeroDivisionError ("float division by zero"))
      else _) = Except.ok s at h
    by_cases hd : maxDim (b - a) = 0
    · rw [if_pos hd] at h
      cases h
    · rw [if_neg hd] at h
      rcases hbb1 : scene_bbox (objs.map (scaleObj (scale / maxDim (b - a))))
        with e | ⟨a1, b1⟩
      · rw [hbb1] at h
        cases h
      · rw [hbb1] at h
        refine ⟨a, b, a1, b1, rfl, hd, hbb1, ?_⟩
        change Except.ok ((objs.map (scaleObj (scale / maxDim (b - a)))).map
          (translateObj (-((2 : ℚ)⁻¹ • (a1 + b1))))) = Except.ok s at h
        injection h with h
        rw [← h]

lemma normBBox_error (scale : ℚ) (objs : List SceneObj) (e : PyExc)
    (h : normalize_scene scale objs = .error e) :
    normBBox scale objs = .error e := by
  unfold normBBox
  rw [h]

lemma normBBox_scene (scale : ℚ) (objs s : List SceneObj)
    (h : normalize_scene scale objs = .ok s) :
    normBBox scale objs = scene_bbox s := by
  unfold normBBox
  rw [h]

/-- C2 (amended): after a successful `normalize_scene(2.5)` the mesh
bounding box is always exactly centered at the origin, and its largest
dimension equals 2.5 provided every mesh object's root origin coincides
(for instance a single root); with no mesh objects normalization raises.
The restriction is forced: scaling multiplies each root's local scale, so
each root scales about its own origin, and roots at distinct origins leave
a different final largest dimension (see the counterexample). -/
theorem normalize_scene_amended (objs : List SceneObj) (c0 : Vec3) :
    (scene_meshes objs = [] →
      normalize_scene (5 / 2) objs =
        .error (.runtimeError ("no objects in scene to compute bounding box for"))) ∧
    (∀ p, normBBox (5 / 2) objs = .ok p → p.1 + p.2 = 0) ∧
    ((∀ o ∈ objs, o.isMesh = true → o.origin = c0) →
      ∀ p, normBBox (5 / 2) objs = .ok p → maxDim (p.2 - p.1) = 5 / 2) := by
  refine ⟨?_, ?_, ?_⟩
  · intro hms
    unfold normalize_scene
    rw [scene_bbox_nil objs hms]
  · intro p hp
    rcases hn : normalize_scene (5 / 2) objs with e | s
    · rw [normBBox_error (5 / 2) objs e hn] at hp
      cases hp
    · rw [normBBox_scene (5 / 2) objs s hn] at hp
      obtain ⟨a, b, a1, b1, hbb, hd, hbb1, hs⟩ :=
        normalize_scene_ok (5 / 2) objs s hn
      subst hs
      have htr : scene_bbox ((objs.map (scaleObj ((5 : ℚ) / 2 /
          maxDim (b - a)))).map
          (translateObj (-((2 : ℚ)⁻¹ • (a1 + b1))))) =
          .ok (a1 + -((2 : ℚ)⁻¹ • (a1 + b1)),
               b1 + -((2 : ℚ)⁻¹ • (a1 + b1))) :=
        scene_bbox_map _ (translateObj (-((2 : ℚ)⁻¹ • (a1 + b1))))
          (fun q => q + -((2 : ℚ)⁻¹ • (a1 + b1)))
          (fun o => rfl) (fun o _ i => rfl)
          (fun x y => vmin_translate _ x y) (fun x y => vmax_translate _ x y)
          a1 b1 hbb1
      rw [htr] at hp
      injection hp with hp
      rw [← hp]
      exact center_sum a1 b1
  · intro horig p hp
    rcases hn : normalize_scene (5 / 2) objs with e | s
    · rw [normBBox_error (5 / 2) objs e hn] at hp
      cases hp
    · rw [normBBox_scene (5 / 2) objs s hn] at hp
      obtain ⟨a, b, a1, b1, hbb, hd, hbb1, hs⟩ :=
        normalize_scene_ok (5 / 2) objs s hn
      subst hs
      have hd0 : 0 ≤ maxDim (b - a) := maxDim_nonneg_of_bbox objs a b hbb
      have hdpos : 0 < maxDim (b - a) := lt_of_le_of_ne hd0 (Ne.symm hd)
      have hc : 0 ≤ (5 : ℚ) / 2 / maxDim (b - a) :=
        le_of_lt (div_pos (by norm_num) hdpos)
      have hsc : scene_bbox (objs.map (scaleObj ((5 : ℚ) / 2 /
          maxDim (b - a)))) =
          .ok (affMap ((5 : ℚ) / 2 / maxDim (b - a)) c0 a,
               affMap ((5 : ℚ) / 2 / maxDim (b - a)) c0 b) := by
        refine scene_bbox_map objs (scaleObj ((5 : ℚ) / 2 / maxDim (b - a)))
          (affMap ((5 : ℚ) / 2 / maxDim (b - a)) c0) (fun o => rfl) ?_
          (vmin_affMap _ c0 hc) (vmax_affMap _ c0 hc) a b hbb
        intro o ho i
        have ho1 : o ∈ objs := List.mem_of_mem_filter ho
        have ho2 : o.isMesh = true := List.of_mem_filter ho
        show affMap _ o.origin (o.corner i) = affMap _ c0 (o.corner i)
        rw [horig o ho1 ho2]
      rw [hbb1] at hsc
      injection hsc with hsc
      have ha1 : a1 = affMap ((5 : ℚ) / 2 / maxDim (b - a)) c0 a :=
        congrArg Prod.fst hsc
      have hb1 : b1 = affMap ((5 : ℚ) / 2 / maxDim (b - a)) c0 b :=
        congrArg Prod.snd hsc
      have htr : scene_bbox ((objs.map (scaleObj ((5 : ℚ) / 2 /
          maxDim (b - a)))).map
          (translateObj (-((2 : ℚ)⁻¹ • (a1 + b1))))) =
          .ok (a1 + -((2 : ℚ)⁻¹ • (a1 + b1)),
               b1 + -((2 : ℚ)⁻¹ • (a1 + b1))) :=
        scene_bbox_map _ (translateObj (-((2 : ℚ)⁻¹ • (a1 + b1))))
          (fun q => q + -((2 : ℚ)⁻¹ • (a1 + b1)))
          (fun o => rfl) (fun o _ i => rfl)
          (fun x y => vmin_translate _ x y) (fun x y => vmax_translate _ x y)
          a1 b1 hbb1
      rw [htr] at hp
      injection hp with hp
      rw [← hp]
      show maxDim ((b1 + -((2 : ℚ)⁻¹ • (a1 + b1))) -
        (a1 + -((2 : ℚ)⁻¹ • (a1 + b1)))) = 5 / 2
      rw [translate_sub, ha1, hb1, affMap_sub, maxDim_smul _ (b - a) hc]
      exact div_mul_cancel₀ ((5 : ℚ) / 2) hd

lemma scaleObj_far : scaleObj (mkRat 5 22) cubeFarRoot =
    ⟨true, (10, 0, 0),
     boxCorner (10, 0, 0) (mkRat 225 22, mkRat 5 22, mkRat 5 22)⟩ := by
  rw [scaleObj, cubeFarRoot]
  congr 1
  funext i
  fin_cases i <;>
    norm_num [affMap, boxCorner, Prod.ext_iff, Rat.mkRat_eq_div, smul_eq_mul]

lemma scaleObj_origin : scaleObj (mkRat 5 22) cubeAtOrigin =
    ⟨true, (0, 0, 0),
     boxCorner (0, 0, 0) (mkRat 5 22, mkRat 5 22, mkRat 5 22)⟩ := by
  rw [scaleObj, cubeAtOrigin]
  congr 1
  funext i
  fin_cases i <;>
    norm_num [affMap, boxCorner, Prod.ext_iff, Rat.mkRat_eq_div, smul_eq_mul]

set_option maxRecDepth 16384 in
/-- C2 counterexample: on the two-root scene `[cubeAtOrigin, cubeFarRoot]`
(two unit-cube meshes whose roots sit at the origin and at `(10,0,0)`),
`normalize_scene(2.5)` succeeds, yet the largest dimension of the resulting
mesh bounding box is `225/22 ≈ 10.23`, not `2.5`: each root was scaled
about its own origin, so the gap between the roots did not shrink to the
target size.  This refutes the claim as stated for scenes with one mesh
object or more. -/
theorem normalize_scene_counterexample :
    scene_meshes [cubeAtOrigin, cubeFarRoot] ≠ [] ∧
    normBBox (5 / 2) [cubeAtOrigin, cubeFarRoot] =
      .ok ((mkRat (-225) 44, mkRat (-5) 44, mkRat (-5) 44),
           (mkRat 225 44, mkRat 5 44, mkRat 5 44)) ∧
    ¬ maxDim (((mkRat 225 44, mkRat 5 44, mkRat 5 44) : Vec3) -
        (mkRat (-225) 44, mkRat (-5) 44, mkRat (-5) 44)) = 5 / 2 := by
  have hbb : scene_bbox [cubeAtOrigin, cubeFarRoot] =
      .ok ((0, 0, 0), (11, 1, 1)) := by decide
  have hsub : ((11, 1, 1) : Vec3) - (0, 0, 0) = (11, 1, 1) := by
    norm_num [Prod.ext_iff]
  have hd : ¬ maxDim (((11, 1, 1) : Vec3) - ((0, 0, 0) : Vec3)) = 0 := by
    rw [hsub]
    decide
  have hc : (5 : ℚ) / 2 / maxDim (((11, 1, 1) : Vec3) - ((0, 0, 0) : Vec3)) =
      mkRat 5 22 := by
    rw [hsub, show maxDim ((11 : ℚ), (1 : ℚ), (1 : ℚ)) = 11 from by decide,
      Rat.mkRat_eq_div]
    norm_num
  have hmap : [cubeAtOrigin, cubeFarRoot].map (scaleObj (mkRat 5 22)) =
      [⟨true, (0, 0, 0), boxCorner (0, 0, 0) (mkRat 5 22, mkRat 5 22, mkRat 5 22)⟩,
       ⟨true, (10, 0, 0),
        boxCorner (10, 0, 0) (mkRat 225 22, mkRat 5 22, mkRat 5 22)⟩] := by
    rw [List.map_cons, List.map_cons, List.map_nil, scaleObj_origin, scaleObj_far]
  have hbb1 : scene_bbox ([cubeAtOrigin, cubeFarRoot].map
      (scaleObj (mkRat 5 22))) =
      .ok ((0, 0, 0), (mkRat 225 22, mkRat 5 22, mkRat 5 22)) := by
    rw [hmap]
    decide
  have ht : -((2 : ℚ)⁻¹ • (((0 : ℚ), (0 : ℚ), (0 : ℚ)) +
      ((mkRat 225 22, mkRat 5 22, mkRat 5 22) : Vec3))) =
      ((mkRat (-225) 44, mkRat (-5) 44, mkRat (-5) 44) : Vec3) := by
    norm_num [Prod.ext_iff, Rat.mkRat_eq_div, smul_eq_mul]
  have hsteps := normalize_scene_steps (5 / 2) [cubeAtOrigin, cubeFarRoot]
    (0, 0, 0) (11, 1, 1) (mkRat 5 22)
    (0, 0, 0) (mkRat 225 22, mkRat 5 22, mkRat 5 22)
    (mkRat (-225) 44, mkRat (-5) 44, mkRat (-5) 44)
    hbb hd hc hbb1 ht
  have htr : scene_bbox (([cubeAtOrigin, cubeFarRoot].map
      (scaleObj (mkRat 5 22))).map
      (translateObj (mkRat (-225) 44, mkRat (-5) 44, mkRat (-5) 44))) =
      .ok (((0 : ℚ), (0 : ℚ), (0 : ℚ)) +
             ((mkRat (-225) 44, mkRat (-5) 44, mkRat (-5) 44) : Vec3),
           ((mkRat 225 22, mkRat 5 22, mkRat 5 22) : Vec3) +
             (mkRat (-225) 44, mkRat (-5) 44, mkRat (-5) 44)) :=
    scene_bbox_map _ (translateObj (mkRat (-225) 44, mkRat (-5) 44, mkRat (-5) 44))
      (fun q => q + ((mkRat (-225) 44, mkRat (-5) 44, mkRat (-5) 44) : Vec3))
      (fun o => rfl) (fun o _ i => rfl)
      (fun x y => vmin_translate _ x y) (fun x y => vmax_translate _ x y)
      _ _ hbb1
  have hadd1 : ((0 : ℚ), (0 : ℚ), (0 : ℚ)) +
      ((mkRat (-225) 44, mkRat (-5) 44, mkRat (-5) 44) : Vec3) =
      ((mkRat (-225) 44, mkRat (-5) 44, mkRat (-5) 44) : Vec3) := by
    norm_num [Prod.ext_iff, Rat.mkRat_eq_div]
  have hadd2 : ((mkRat 225 22, mkRat 5 22, mkRat 5 22) : Vec3) +
      ((mkRat (-225) 44, mkRat (-5) 44, mkRat (-5) 44) : Vec3) =
      ((mkRat 225 44, mkRat 5 44, mkRat 5 44) : Vec3) := by
    norm_num [Prod.ext_iff, Rat.mkRat_eq_div]
  refine ⟨by simp [scene_meshes, cubeAtOrigin, cubeFarRoot], ?_, ?_⟩
  · rw [normBBox_scene _ _ _ hsteps, htr, hadd1, hadd2]
  · have hdiff : ((mkRat 225 44, mkRat 5 44, mkRat 5 44) : Vec3) -
        ((mkRat (-225) 44, mkRat (-5) 44, mkRat (-5) 44) : Vec3) =
        ((mkRat 225 22, mkRat 5 22, mkRat 5 22) : Vec3) := by
      norm_num [Prod.ext_iff, Rat.mkRat_eq_div]
    rw [hdiff, show maxDim ((mkRat 225 22 : ℚ), (mkRat 5 22 : ℚ),
      (mkRat 5 22 : ℚ)) = mkRat 225 22 from by decide, Rat.mkRat_eq_div]
    norm_num

lemma scaleObj_origin_half : scaleObj (mkRat 5 2) cubeAtOrigin =
    ⟨true, (0, 0, 0),
     boxCorner (0, 0, 0) (mkRat 5 2, mkRat 5 2, mkRat 5 2)⟩ := by
  rw [scaleObj, cubeAtOrigin]
  congr 1
  funext i
  fin_cases i <;>
    norm_num [affMap, boxCorner, Prod.ext_iff, Rat.mkRat_eq_div, smul_eq_mul]

set_option maxRecDepth 16384 in
/-- C2 witness: the empty scene raises, and on the single-root unit cube
the amended theorem gives a bounding box of `[-5/4, 5/4]³`: centered at
the origin with largest dimension exactly `5/2`. -/
theorem normalize_scene_amended_witness :
    normalize_scene (5 / 2) ([] : List SceneObj) =
      .error (.runtimeError ("no objects in scene to compute bounding box for")) ∧
    normBBox (5 / 2) [cubeAtOrigin] =
      .ok ((mkRat (-5) 4, mkRat (-5) 4, mkRat (-5) 4),
           (mkRat 5 4, mkRat 5 4, mkRat 5 4)) ∧
    ((mkRat (-5) 4, mkRat (-5) 4, mkRat (-5) 4) : Vec3) +
      ((mkRat 5 4, mkRat 5 4, mkRat 5 4) : Vec3) = 0 ∧
    maxDim (((mkRat 5 4, mkRat 5 4, mkRat 5 4) : Vec3) -
      ((mkRat (-5) 4, mkRat (-5) 4, mkRat (-5) 4) : Vec3)) = 5 / 2 := by
  have hbb : scene_bbox [cubeAtOrigin] = .ok ((0, 0, 0), (1, 1, 1)) := by decide
  have hsub : ((1, 1, 1) : Vec3) - (0, 0, 0) = (1, 1, 1) := by
    norm_num [Prod.ext_iff]
  have hd : ¬ maxDim (((1, 1, 1) : Vec3) - ((0, 0, 0) : Vec3)) = 0 := by
    rw [hsub]
    decide
  have hc : (5 : ℚ) / 2 / maxDim (((1, 1, 1) : Vec3) - ((0, 0, 0) : Vec3)) =
      mkRat 5 2 := by
    rw [hsub, show maxDim ((1 : ℚ), (1 : ℚ), (1 : ℚ)) = 1 from by decide,
      Rat.mkRat_eq_div]
    norm_num
  have hmap : [cubeAtOrigin].map (scaleObj (mkRat 5 2)) =
      [⟨true, (0, 0, 0), boxCorner (0, 0, 0) (mkRat 5 2, mkRat 5 2, mkRat 5 2)⟩] := by
    rw [List.map_cons, List.map_nil, scaleObj_origin_half]
  have hbb1 : scene_bbox ([cubeAtOrigin].map (scaleObj (mkRat 5 2))) =
      .ok ((0, 0, 0), (mkRat 5 2, mkRat 5 2, mkRat 5 2)) := by
    rw [hmap]
    decide
  have ht : -((2 : ℚ)⁻¹ • (((0 : ℚ), (0 : ℚ), (0 : ℚ)) +
      ((mkRat 5 2, mkRat 5 2, mkRat 5 2) : Vec3))) =
      ((mkRat (-5) 4, mkRat (-5) 4, mkRat (-5) 4) : Vec3) := by
    norm_num [Prod.ext_iff, Rat.mkRat_eq_div, smul_eq_mul]
  have hsteps := normalize_scene_steps (5 / 2) [cubeAtOrigin]
    (0, 0, 0) (1, 1, 1) (mkRat 5 2)
    (0, 0, 0) (mkRat 5 2, mkRat 5 2, mkRat 5 2)
    (mkRat (-5) 4, mkRat (-5) 4, mkRat (-5) 4)
    hbb hd hc hbb1 ht
  have htr : scene_bbox (([cubeAtOrigin].map (scaleObj (mkRat 5 2))).map
      (translateObj (mkRat (-5) 4, mkRat (-5) 4, mkRat (-5) 4))) =
      .ok (((0 : ℚ), (0 : ℚ), (0 : ℚ)) +
             ((mkRat (-5) 4, mkRat (-5) 4, mkRat (-5) 4) : Vec3),
           ((mkRat 5 2, mkRat 5 2, mkRat 5 2) : Vec3) +
             ((mkRat (-5) 4, mkRat (-5) 4, mkRat (-5) 4) : Vec3)) :=
    scene_bbox_map _ (translateObj (mkRat (-5) 4, mkRat (-5) 4, mkRat (-5) 4))
      (fun q => q + ((mkRat (-5) 4, mkRat (-5) 4, mkRat (-5) 4) : Vec3))
      (fun o => rfl) (fun o _ i => rfl)
      (fun x y => vmin_translate _ x y) (fun x y => vmax_translate _ x y)
      _ _ hbb1
  have hadd1 : ((0 : ℚ), (0 : ℚ), (0 : ℚ)) +
      ((mkRat (-5) 4, mkRat (-5) 4, mkRat (-5) 4) : Vec3) =
      ((mkRat (-5) 4, mkRat (-5) 4, mkRat (-5) 4) : Vec3) := by
    norm_num [Prod.ext_iff, Rat.mkRat_eq_div]
  have hadd2 : ((mkRat 5 2, mkRat 5 2, mkRat 5 2) : Vec3) +
      ((mkRat (-5) 4, mkRat (-5) 4, mkRat (-5) 4) : Vec3) =
      ((mkRat 5 4, mkRat 5 4, mkRat 5 4) : Vec3) := by
    norm_num [Prod.ext_iff, Rat.mkRat_eq_div]
  have hok : normBBox (5 / 2) [cubeAtOrigin] =
      .ok ((mkRat (-5) 4, mkRat (-5) 4, mkRat (-5) 4),
           (mkRat 5 4, mkRat 5 4, mkRat 5 4)) := by
    rw [normBBox_scene _ _ _ hsteps, htr, hadd1, hadd2]
  refine ⟨(normalize_scene_amended [] (0, 0, 0)).1 rfl, hok, ?_, ?_⟩
  · exact (normalize_scene_amended [cubeAtOrigin] (0, 0, 0)).2.1
      ((mkRat (-5) 4, mkRat (-5) 4, mkRat (-5) 4),
       (mkRat 5 4, mkRat 5 4, mkRat 5 4)) hok
  · refine (normalize_scene_amended [cubeAtOrigin] (0, 0, 0)).2.2 ?_
      ((mkRat (-5) 4, mkRat (-5) 4, mkRat (-5) 4),
       (mkRat 5 4, mkRat 5 4, mkRat 5 4)) hok
    intro o ho _
    rw [List.mem_singleton.mp ho]
    rfl
